import Mathlib

/-!
Verification development for a browser-based idle-mining game client.

The development shallowly embeds the repository's core logic:
economy formulas (upgrade cost, hash rate, earnings), the game-state
reducer, the offline-earnings reconciliation, and the sync layer
(retry, offline queue, cache, versioned saves).  JavaScript numbers are
modelled as exact rationals (ℚ), timestamps as integers (epoch
milliseconds), and ISO date strings as their epoch-millisecond value.
Network and storage effects are modelled by explicit state passing: a
world record carries the auth token, the local durable cache, the
offline operation queue, the online flag, and scripted outcomes for the
successive network calls; each operation returns the updated world
together with its API response, and records the save requests it
submits so that theorems can speak about the requests actually issued.
-/

namespace CryptoMiner

/-- The closed set of part identifiers of `partConfigs`. -/
inductive PartName
  | cpu
  | gpu
  | motherboard
  | psu
  | ram
deriving DecidableEq, Repr

/-- Static configuration of one part (src/config/partConfigs.ts). -/
structure PartConfig where
  maxLevel : ℕ
  baseHashRate : ℚ
  basePrice : ℚ
  priceMultiplier : ℚ
  hashRateMultiplier : ℚ
deriving DecidableEq, Repr

/-- The static part-configuration table (src/config/partConfigs.ts). -/
def partConfigs : PartName → PartConfig
  | .cpu => ⟨25, 0.5, 100, 1.5, 1.2⟩
  | .gpu => ⟨20, 1.0, 150, 1.6, 1.3⟩
  | .motherboard => ⟨15, 0.3, 80, 1.4, 1.15⟩
  | .psu => ⟨12, 0.2, 60, 1.35, 1.1⟩
  | .ram => ⟨18, 0.4, 90, 1.45, 1.25⟩

/-- The `parts` record of a game state: a level for each part. -/
structure Parts where
  cpu : ℕ
  gpu : ℕ
  motherboard : ℕ
  psu : ℕ
  ram : ℕ
deriving DecidableEq, Repr

/-- Field access of the `parts` record by part identifier. -/
def Parts.level (ps : Parts) : PartName → ℕ
  | .cpu => ps.cpu
  | .gpu => ps.gpu
  | .motherboard => ps.motherboard
  | .psu => ps.psu
  | .ram => ps.ram

/-- Functional update of the `parts` record at one part identifier,
modelling the spread `{ ...state.parts, [part]: level }`. -/
def Parts.upd (ps : Parts) : PartName → ℕ → Parts
  | .cpu, v => { ps with cpu := v }
  | .gpu, v => { ps with gpu := v }
  | .motherboard, v => { ps with motherboard := v }
  | .psu, v => { ps with psu := v }
  | .ram, v => { ps with ram := v }

/-- The displayed per-part hash-rate record carried by the state
(initialised in GameContext and otherwise carried through spreads). -/
structure HashRates where
  cpu : ℚ
  gpu : ℚ
  motherboard : ℚ
  psu : ℚ
  ram : ℚ
deriving DecidableEq, Repr

/-- The client game state as used by the reducer and the calculations
(GameContext.tsx: balance, parts, hashRates, lastUpdated, isMining,
totalMined, miningStartTime).  `lastUpdated` and `miningStartTime` are
epoch-millisecond timestamps. -/
structure GameState where
  balance : ℚ
  parts : Parts
  hashRates : HashRates
  lastUpdated : ℤ
  isMining : Bool
  totalMined : ℚ
  miningStartTime : Option ℤ
deriving DecidableEq, Repr

/-- Math.floor(config.basePrice * config.priceMultiplier ^ currentLevel)
(calculateUpgradeCost in the calculations module). -/
def calculateUpgradeCost (part : PartName) (currentLevel : ℕ) : ℤ :=
  let config := partConfigs part
  ⌊config.basePrice * config.priceMultiplier ^ currentLevel⌋

/-- config.baseHashRate * config.hashRateMultiplier ^ (level - 1)
(calculateHashRate).  The exponent is taken in ℤ, matching
JavaScript `Math.pow`, which accepts negative exponents. -/
def calculateHashRate (part : PartName) (level : ℕ) : ℚ :=
  let config := partConfigs part
  config.baseHashRate * config.hashRateMultiplier ^ ((level : ℤ) - 1)

/-- Sum of `calculateHashRate` over the five entries of the parts
record, in `Object.entries` order (calculateTotalHashRate). -/
def calculateTotalHashRate (parts : Parts) : ℚ :=
  0 + calculateHashRate .cpu parts.cpu
    + calculateHashRate .gpu parts.gpu
    + calculateHashRate .motherboard parts.motherboard
    + calculateHashRate .psu parts.psu
    + calculateHashRate .ram parts.ram

/-- calculateEarningsPerSecond: total hash rate times the earnings
multiplier (constant 1.0 in the source). -/
def calculateEarningsPerSecond (parts : Parts) : ℚ :=
  let totalHashRate := calculateTotalHashRate parts
  let earningsMultiplier : ℚ := 1.0
  totalHashRate * earningsMultiplier

/-- Result record of `calculateOfflineEarnings`. -/
structure OfflineResult where
  earnings : ℤ
  timeOffline : ℤ
deriving DecidableEq, Repr

/-- calculateOfflineEarnings: elapsed whole seconds since
`lastUpdated`, capped above at 24 hours (86400 s) by `Math.min`, then
earnings = Math.floor(earningsPerSecond * cappedTime * 0.5). -/
def calculateOfflineEarnings (gameState : GameState) (currentTime : ℤ) :
    OfflineResult :=
  let lastUpdated := gameState.lastUpdated
  let timeOffline : ℤ := ⌊((currentTime - lastUpdated : ℤ) : ℚ) / 1000⌋
  let maxOfflineTime : ℤ := 24 * 60 * 60
  let cappedOfflineTime := min timeOffline maxOfflineTime
  let earningsPerSecond := calculateEarningsPerSecond gameState.parts
  let offlineEfficiencyMultiplier : ℚ := 0.5
  let earnings :=
    earningsPerSecond * (cappedOfflineTime : ℚ) * offlineEfficiencyMultiplier
  { earnings := ⌊earnings⌋, timeOffline := cappedOfflineTime }

/-- calculateMiningProgress: earnings per second times the elapsed
seconds. -/
def calculateMiningProgress (gameState : GameState) (elapsedSeconds : ℚ) : ℚ :=
  let earningsPerSecond := calculateEarningsPerSecond gameState.parts
  earningsPerSecond * elapsedSeconds

/-- The reducer's action type (GameAction in GameContext.tsx). -/
inductive GameAction
  | updateBalanceA (payload : ℚ)
  | upgradePartA (part : PartName) (level : ℕ)
  | setGameState (payload : GameState)
  | startMining
  | stopMining
  | updateMiningProgress
  | updateOfflineProgress (earnings : ℚ) (timeOffline : ℚ)
  | showOfflineEarnings (earnings : ℚ) (timeOffline : ℚ)
deriving DecidableEq

/-- Whether an action is the SET_GAME_STATE (ReplaceState) action. -/
def GameAction.isReplaceState : GameAction → Bool
  | .setGameState _ => true
  | _ => false

/-- gameReducer (GameContext.tsx).  `now` stands for the value of
`new Date().toISOString()` taken at dispatch time.
SHOW_OFFLINE_EARNINGS reaches the default branch and leaves the state
unchanged. -/
def gameReducer (state : GameState) (action : GameAction) (now : ℤ) :
    GameState :=
  match action with
  | .updateBalanceA v =>
      { state with balance := v, lastUpdated := now }
  | .upgradePartA part level =>
      { state with parts := state.parts.upd part level, lastUpdated := now }
  | .setGameState payload =>
      { payload with lastUpdated := now }
  | .startMining =>
      { state with isMining := true, miningStartTime := some now }
  | .stopMining =>
      { state with isMining := false, miningStartTime := none,
                   lastUpdated := now }
  | .updateMiningProgress =>
      let earnings := calculateMiningProgress state 1
      { state with balance := state.balance + earnings,
                   totalMined := state.totalMined + earnings,
                   lastUpdated := now }
  | .updateOfflineProgress earnings _ =>
      { state with balance := state.balance + earnings,
                   totalMined := state.totalMined + earnings,
                   lastUpdated := now }
  | .showOfflineEarnings _ _ => state

/-- The initial state of GameContext.tsx (its `lastUpdated` value,
`new Date().toISOString()`, is a parameter). -/
def initialState (t0 : ℤ) : GameState :=
  { balance := 0
    parts := ⟨1, 1, 1, 1, 1⟩
    hashRates := ⟨0.5, 1.0, 0.3, 0.2, 0.4⟩
    lastUpdated := t0
    isMining := false
    totalMined := 0
    miningStartTime := none }

/-- Outcome of one network call as seen by an axios `catch` handler:
a successful response, an error without a response object
(connectivity-level failure), or an error carrying a response with an
HTTP status. -/
inductive NetOutcome (α : Type)
  | ok (value : α)
  | noResponse
  | httpError (status : ℕ)
deriving DecidableEq, Repr

/-- Whether a network outcome is a success. -/
def NetOutcome.isOk {α : Type} : NetOutcome α → Bool
  | .ok _ => true
  | _ => false

/-- MAX_RETRY_ATTEMPTS of the sync module. -/
def MAX_RETRY_ATTEMPTS : ℕ := 3

/-- Observable behaviour of one `retryWithBackoff` run: the outcome
the caller sees, the delays slept between attempts, and the number of
calls made to the wrapped operation. -/
structure RetryRun (α : Type) where
  result : NetOutcome α
  delays : List ℕ
  calls : ℕ
deriving DecidableEq, Repr

/-- Recursion of retryWithBackoff.  `retries` is the remaining retry
budget, `callIdx` indexes the successive invocations of the wrapped
operation (`op callIdx` is the outcome of the next call).  A failure
without a response is retried while the budget lasts, after a delay of
min(1000 * (MAX_RETRY_ATTEMPTS - retries + 1), 5000) ms; any other
outcome is returned at once. -/
def retryAux {α : Type} (op : ℕ → NetOutcome α) :
    (retries : ℕ) → (callIdx : ℕ) → RetryRun α
  | retries, callIdx =>
    match op callIdx, retries with
    | .ok v, _ => ⟨.ok v, [], 1⟩
    | .httpError s, _ => ⟨.httpError s, [], 1⟩
    | .noResponse, 0 => ⟨.noResponse, [], 1⟩
    | .noResponse, r + 1 =>
      let delay := min (1000 * (MAX_RETRY_ATTEMPTS - (r + 1) + 1)) 5000
      let rest := retryAux op r (callIdx + 1)
      ⟨rest.result, delay :: rest.delays, rest.calls + 1⟩

/-- retryWithBackoff with its default retry budget MAX_RETRY_ATTEMPTS,
as every call site of the sync module uses it. -/
def retryWithBackoff {α : Type} (op : ℕ → NetOutcome α) : RetryRun α :=
  retryAux op MAX_RETRY_ATTEMPTS 0

/-- GameState together with the optimistic-concurrency `version` field
of the zod GameStateSchema. -/
structure GameStateWV where
  state : GameState
  version : ℕ
deriving DecidableEq, Repr

/-- A JSON value held in the durable cache or received from the
server: either it validates against GameStateSchema or it does not.
Serialisation of a validated state is `Stored.valid`. -/
inductive Stored
  | valid (s : GameStateWV)
  | invalid
deriving DecidableEq, Repr

/-- GameStateSchema.parse: succeeds exactly on values that validate. -/
def parseGameState : Stored → Option GameStateWV
  | .valid s => some s
  | .invalid => none

/-- ApiResponse of the sync module (plus the `warning` field its
queued results carry). -/
structure ApiResponse (α : Type) where
  success : Bool
  data : Option α := none
  error : Option String := none
  warning : Option String := none
deriving DecidableEq, Repr

/-- Payload of a queued operation (`data` of QueuedOperation). -/
inductive OpPayload
  | save (data : GameStateWV)
  | upgrade (part : PartName) (level : ℕ)
  | balance (data : ℚ)
deriving DecidableEq, Repr

/-- QueuedOperation: a deferred mutation with its enqueue timestamp. -/
structure QueuedOperation where
  payload : OpPayload
  timestamp : ℤ
deriving DecidableEq, Repr

/-- A save request as submitted to POST /game/save: the body state and
the version carried by the If-Match header. -/
structure SaveRequest where
  gameState : GameStateWV
  ifMatch : ℕ
deriving DecidableEq, Repr

/-- Observable side effects of the sync layer, in order: writes of the
durable cache slot, submitted save requests, queue appends. -/
inductive SyncEvent
  | cacheWrite (value : Stored)
  | savePost (req : SaveRequest)
  | enqueue (op : QueuedOperation)
deriving DecidableEq, Repr

/-- The save requests among a list of sync events. -/
def savePosts (events : List SyncEvent) : List SaveRequest :=
  events.filterMap fun e =>
    match e with
    | .savePost req => some req
    | _ => none

/-- The mutable environment of the sync module: the auth token, the
durable cache slot (STORAGE_KEY), the offline operation queue, the
`navigator.onLine` flag, the current clock (`Date.now()` in ms), the
scripted outcomes of the successive GET /game/load and POST /game/save
calls (each entry is the final outcome after the retry wrapper; an
exhausted script behaves as a connectivity failure), and the event
trace accumulated so far. -/
structure World where
  token : Option ℕ
  cache : Option Stored
  queue : List QueuedOperation
  online : Bool
  now : ℤ
  loadResults : List (NetOutcome Stored)
  saveResults : List (NetOutcome Unit)
  events : List SyncEvent
deriving DecidableEq, Repr

/-- Consume the next GET /game/load outcome. -/
def World.popLoad (w : World) : NetOutcome Stored × World :=
  match w.loadResults with
  | [] => (.noResponse, w)
  | r :: rest => (r, { w with loadResults := rest })

/-- Consume the next POST /game/save outcome. -/
def World.popSave (w : World) : NetOutcome Unit × World :=
  match w.saveResults with
  | [] => (.noResponse, w)
  | r :: rest => (r, { w with saveResults := rest })

/-- fetchGameState: requires a token; on a successful response the
validated state is written to the cache and returned; on a
connectivity failure the cached copy is re-validated and used, a cache
failing validation yields "Invalid stored game state", a missing cache
the generic failure; a 401 response yields "Authentication required"
without consulting the cache; any other error status the generic
failure. -/
def fetchGameState (w : World) : World × ApiResponse GameStateWV :=
  match w.token with
  | none =>
      (w, { success := false, error := some "No authentication token found" })
  | some _ =>
    let res := w.popLoad
    let w1 := res.2
    match res.1 with
    | .ok raw =>
      match parseGameState raw with
      | some validatedState =>
          ({ w1 with cache := some (.valid validatedState),
                     events := w1.events ++ [.cacheWrite (.valid validatedState)] },
           { success := true, data := some validatedState })
      | none =>
          (w1, { success := false, error := some "Failed to load game state" })
    | .noResponse =>
      match w1.cache with
      | some savedState =>
        match parseGameState savedState with
        | some parsedState => (w1, { success := true, data := some parsedState })
        | none =>
            (w1, { success := false, error := some "Invalid stored game state" })
      | none =>
          (w1, { success := false, error := some "Failed to load game state" })
    | .httpError status =>
      if status = 401 then
        (w1, { success := false, error := some "Authentication required" })
      else
        (w1, { success := false, error := some "Failed to save game state" })

/-- debouncedSave, the body the debounce wrapper eventually executes
for a burst: posts the state with If-Match set to its version; on
success the state is written to the cache; on failure the operation is
enqueued and reported as a queued success when offline, and reported
as an error (and not enqueued) when online. -/
def debouncedSave (state : GameStateWV) (w : World) :
    World × ApiResponse Unit :=
  match w.token with
  | none =>
    if !w.online then
      let op : QueuedOperation := ⟨.save state, w.now⟩
      ({ w with queue := w.queue ++ [op], events := w.events ++ [.enqueue op] },
       { success := true, warning := some "Changes queued for sync" })
    else
      (w, { success := false, error := some "No authentication token found" })
  | some _ =>
    let req : SaveRequest := ⟨state, state.version⟩
    let res := w.popSave
    let w2 := { res.2 with events := res.2.events ++ [.savePost req] }
    match res.1 with
    | .ok _ =>
        ({ w2 with cache := some (.valid state),
                   events := w2.events ++ [.cacheWrite (.valid state)] },
         { success := true })
    | _ =>
      if !w2.online then
        let op : QueuedOperation := ⟨.save state, w2.now⟩
        ({ w2 with queue := w2.queue ++ [op], events := w2.events ++ [.enqueue op] },
         { success := true, warning := some "Changes queued for sync" })
      else
        (w2, { success := false, error := some "Failed to save game state" })

/-- saveProgress: reloads the current state, overrides the version of
the state to save with the loaded version plus one, and hands it to
the (debounced) save; if the reload fails, reports failure without
saving. -/
def saveProgress (state : GameStateWV) (w : World) :
    World × ApiResponse Unit :=
  let r := fetchGameState w
  let w1 := r.1
  let currentState := r.2
  match currentState.success, currentState.data with
  | true, some data =>
      let serverVersion := data.version
      let newState := { state with version := serverVersion + 1 }
      debouncedSave newState w1
  | _, _ =>
      (w1, { success := false, error := some "Failed to fetch current state" })

/-- upgradePart: reloads the current state, writes the optimistically
updated state to the cache, then either enqueues the upgrade (offline)
or delegates to saveProgress (online). -/
def upgradePart (part : PartName) (newLevel : ℕ) (w : World) :
    World × ApiResponse Unit :=
  let r := fetchGameState w
  let w1 := r.1
  let currentState := r.2
  match currentState.success, currentState.data with
  | true, some data =>
      let updatedState : GameStateWV :=
        { data with state :=
            { data.state with parts := data.state.parts.upd part newLevel } }
      let w2 := { w1 with cache := some (.valid updatedState),
                          events := w1.events ++ [.cacheWrite (.valid updatedState)] }
      if !w2.online then
        let op : QueuedOperation := ⟨.upgrade part newLevel, w2.now⟩
        ({ w2 with queue := w2.queue ++ [op], events := w2.events ++ [.enqueue op] },
         { success := true, warning := some "Upgrade queued for sync" })
      else
        saveProgress updatedState w2
  | _, _ =>
      (w1, { success := false, error := some "Failed to fetch current state" })

/-- updateBalance: reloads the current state, writes the state with
the new balance optimistically to the cache, then either enqueues the
balance update (offline) or delegates to saveProgress (online). -/
def updateBalance (newBalance : ℚ) (w : World) :
    World × ApiResponse Unit :=
  let r := fetchGameState w
  let w1 := r.1
  let currentState := r.2
  match currentState.success, currentState.data with
  | true, some data =>
      let updatedState : GameStateWV :=
        { data with state := { data.state with balance := newBalance } }
      let w2 := { w1 with cache := some (.valid updatedState),
                          events := w1.events ++ [.cacheWrite (.valid updatedState)] }
      if !w2.online then
        let op : QueuedOperation := ⟨.balance newBalance, w2.now⟩
        ({ w2 with queue := w2.queue ++ [op], events := w2.events ++ [.enqueue op] },
         { success := true, warning := some "Balance update queued for sync" })
      else
        saveProgress updatedState w2
  | _, _ =>
      (w1, { success := false, error := some "Failed to fetch current state" })

/-- Comparator of the queue sort, `(a, b) => a.timestamp - b.timestamp`
(ascending by enqueue timestamp; Array.prototype.sort is stable). -/
def queueLe (a b : QueuedOperation) : Bool :=
  a.timestamp ≤ b.timestamp

/-- Loop of processQueue over the sorted copy of the queue.  First
component of the result: the operations whose replay was attempted, in
order.  Second component: the remaining queue.  A successful replay
removes the operation from the queue (the source filters by object
identity; with pairwise-distinct queue entries this is removal of that
entry); the first replay that throws stops the loop. -/
def processQueueLoop (replay : QueuedOperation → Bool) :
    List QueuedOperation → List QueuedOperation →
    List QueuedOperation × List QueuedOperation
  | [], queue => ([], queue)
  | op :: rest, queue =>
    if replay op then
      let r := processQueueLoop replay rest
        (queue.filter fun x => decide (x ≠ op))
      (op :: r.1, r.2)
    else
      ([op], queue)

/-- processQueue: does nothing when offline or when the queue is
empty; otherwise replays the operations in FIFO timestamp order,
removing each from the queue after a successful replay and stopping at
the first replay that throws.  `replay` abstracts whether the awaited
replay of an operation throws. -/
def processQueue (replay : QueuedOperation → Bool) (online : Bool)
    (queue : List QueuedOperation) :
    List QueuedOperation × List QueuedOperation :=
  if !online || queue.isEmpty then ([], queue)
  else processQueueLoop replay (queue.mergeSort queueLe) queue

/-! ## Economy and reducer lemmas -/

lemma calculateHashRate_nonneg (p : PartName) (l : ℕ) :
    0 ≤ calculateHashRate p l := by
  cases p <;> simp only [calculateHashRate, partConfigs] <;> positivity

lemma calculateEarningsPerSecond_nonneg (ps : Parts) :
    0 ≤ calculateEarningsPerSecond ps := by
  unfold calculateEarningsPerSecond calculateTotalHashRate
  have h1 := calculateHashRate_nonneg .cpu ps.cpu
  have h2 := calculateHashRate_nonneg .gpu ps.gpu
  have h3 := calculateHashRate_nonneg .motherboard ps.motherboard
  have h4 := calculateHashRate_nonneg .psu ps.psu
  have h5 := calculateHashRate_nonneg .ram ps.ram
  have : (1.0 : ℚ) = 1 := by norm_num
  rw [this, mul_one]
  linarith

lemma cost_step (p : PartName) (l : ℕ) :
    calculateUpgradeCost p l < calculateUpgradeCost p (l + 1) := by
  have hfacts : 0 < (partConfigs p).basePrice
      ∧ 1 ≤ (partConfigs p).priceMultiplier
      ∧ 1 ≤ (partConfigs p).basePrice * ((partConfigs p).priceMultiplier - 1) := by
    cases p <;> norm_num [partConfigs]
  obtain ⟨hb, hm, hgap⟩ := hfacts
  show ⌊(partConfigs p).basePrice * (partConfigs p).priceMultiplier ^ l⌋
      < ⌊(partConfigs p).basePrice * (partConfigs p).priceMultiplier ^ (l + 1)⌋
  set b := (partConfigs p).basePrice with hbdef
  set m := (partConfigs p).priceMultiplier with hmdef
  have hpow : (1 : ℚ) ≤ m ^ l := one_le_pow₀ hm
  have key : b * m ^ l + 1 ≤ b * m ^ (l + 1) := by
    have hexp : b * m ^ (l + 1) - b * m ^ l = b * (m - 1) * m ^ l := by ring
    nlinarith [mul_le_mul_of_nonneg_left hpow (le_of_lt (mul_pos hb (by linarith : (0:ℚ) < m - 1 + 1)))]
  have h1 : ⌊b * m ^ l⌋ + 1 ≤ ⌊b * m ^ (l + 1)⌋ := by
    have := Int.floor_le_floor key
    rw [show (b * m ^ l + 1 : ℚ) = b * m ^ l + (1 : ℤ) by push_cast; ring,
      Int.floor_add_int] at this
    omega
  omega

lemma cost_strictMono (p : PartName) : StrictMono (calculateUpgradeCost p) :=
  strictMono_nat_of_lt_succ (cost_step p)

lemma rate_strictMono (p : PartName) {l1 l2 : ℕ} (h : l1 < l2) :
    calculateHashRate p l1 < calculateHashRate p l2 := by
  have hfacts : 0 < (partConfigs p).baseHashRate
      ∧ 1 < (partConfigs p).hashRateMultiplier := by
    cases p <;> norm_num [partConfigs]
  obtain ⟨hh, hk⟩ := hfacts
  unfold calculateHashRate
  exact mul_lt_mul_of_pos_left
    (zpow_lt_zpow_right₀ hk (by omega : ((l1 : ℤ) - 1) < ((l2 : ℤ) - 1))) hh

/-! ## Claim theorems: economy and reducer -/

/-- C8: for every configured part and every pair of levels l1 < l2 in
1..maxLevel of that part, the upgrade cost
floor(basePrice * priceMultiplier ^ level) and the hash rate are
strictly increasing in level under the static part configurations. -/
theorem upgradeCost_hashRate_strictMono (p : PartName) (l1 l2 : ℕ)
    (h1 : 1 ≤ l1) (h12 : l1 < l2) (h2 : l2 ≤ (partConfigs p).maxLevel) :
    calculateUpgradeCost p l1 < calculateUpgradeCost p l2
    ∧ calculateHashRate p l1 < calculateHashRate p l2 :=
  ⟨cost_strictMono p h12, rate_strictMono p h12⟩

/-- Witness for C8 at part cpu, levels 1 < 2 ≤ 25. -/
theorem upgradeCost_hashRate_strictMono_witness :
    calculateUpgradeCost .cpu 1 < calculateUpgradeCost .cpu 2
    ∧ calculateHashRate .cpu 1 < calculateHashRate .cpu 2 :=
  upgradeCost_hashRate_strictMono .cpu 1 2 (by norm_num) (by norm_num)
    (by norm_num [partConfigs])

/-- C1 (counterexample): the claim asserts the returned timeOffline is
non-negative for every input, but the source only caps it from above
with Math.min; with lastUpdated 1000 ms and current time 0 the
returned timeOffline is -1. -/
theorem offlineEarnings_negative_time_counterexample :
    (calculateOfflineEarnings (initialState 1000) 0).timeOffline < 0 := by
  show min ⌊((0 - 1000 : ℤ) : ℚ) / 1000⌋ (24 * 60 * 60) < 0
  norm_num

/-- C1 (amended): calculateOfflineEarnings returns
timeOffline = min(floor((now - lastUpdated) / 1 s), 86400), which is
clamped from above only; it is at most 86400 for every input, it is
non-negative whenever now is not before lastUpdated, earnings equals
floor(earningsPerSecond(parts) * timeOffline * 0.5), and when
now - lastUpdated is 100000 seconds the returned timeOffline is 86400
with earnings = floor(earningsPerSecond * 86400 * 0.5). -/
theorem calculateOfflineEarnings_spec (gs : GameState) (t : ℤ) :
    (calculateOfflineEarnings gs t).timeOffline
        = min ⌊((t - gs.lastUpdated : ℤ) : ℚ) / 1000⌋ 86400
    ∧ (calculateOfflineEarnings gs t).timeOffline ≤ 86400
    ∧ (gs.lastUpdated ≤ t → 0 ≤ (calculateOfflineEarnings gs t).timeOffline)
    ∧ (calculateOfflineEarnings gs t).earnings
        = ⌊calculateEarningsPerSecond gs.parts
            * ((calculateOfflineEarnings gs t).timeOffline : ℚ) * 0.5⌋
    ∧ (t - gs.lastUpdated = 100000000 →
        (calculateOfflineEarnings gs t).timeOffline = 86400
        ∧ (calculateOfflineEarnings gs t).earnings
            = ⌊calculateEarningsPerSecond gs.parts * 86400 * 0.5⌋) := by
  have htime : (calculateOfflineEarnings gs t).timeOffline
      = min ⌊((t - gs.lastUpdated : ℤ) : ℚ) / 1000⌋ 86400 := by
    show min ⌊((t - gs.lastUpdated : ℤ) : ℚ) / 1000⌋ (24 * 60 * 60)
        = min ⌊((t - gs.lastUpdated : ℤ) : ℚ) / 1000⌋ 86400
    norm_num
  refine ⟨htime, ?_, ?_, ?_, ?_⟩
  · rw [htime]; exact min_le_right _ _
  · intro hle
    rw [htime]
    refine le_min ?_ (by norm_num)
    refine Int.floor_nonneg.mpr ?_
    have : (0 : ℚ) ≤ ((t - gs.lastUpdated : ℤ) : ℚ) := by
      exact_mod_cast Int.sub_nonneg.mpr hle
    positivity
  · rfl
  · intro hdiff
    have h86400 : (calculateOfflineEarnings gs t).timeOffline = 86400 := by
      rw [htime, hdiff]
      norm_num
    refine ⟨h86400, ?_⟩
    have hear : (calculateOfflineEarnings gs t).earnings
        = ⌊calculateEarningsPerSecond gs.parts
            * ((calculateOfflineEarnings gs t).timeOffline : ℚ) * 0.5⌋ := rfl
    rw [hear, h86400]
    norm_num

/-- Witness for C1 (amended) at the initial state, 100000 seconds
after its lastUpdated timestamp. -/
theorem calculateOfflineEarnings_spec_witness :
    (calculateOfflineEarnings (initialState 0) 100000000).timeOffline
      = 86400 := by
  have h := calculateOfflineEarnings_spec (initialState 0) 100000000
  exact (h.2.2.2.2 (by norm_num [initialState])).1

/-- Iterating the mining tick accrues linearly and keeps the parts. -/
lemma miningTick_iterate (now : ℤ) (n : ℕ) (s : GameState) :
    ((fun st => gameReducer st .updateMiningProgress now)^[n] s).balance
        = s.balance + (n : ℚ) * calculateEarningsPerSecond s.parts
    ∧ ((fun st => gameReducer st .updateMiningProgress now)^[n] s).totalMined
        = s.totalMined + (n : ℚ) * calculateEarningsPerSecond s.parts
    ∧ ((fun st => gameReducer st .updateMiningProgress now)^[n] s).parts
        = s.parts := by
  induction n with
  | zero => simp
  | succ k ih =>
    obtain ⟨ihb, iht, ihp⟩ := ih
    rw [Function.iterate_succ_apply']
    refine ⟨?_, ?_, ?_⟩
    · show ((fun st => gameReducer st .updateMiningProgress now)^[k] s).balance
          + calculateMiningProgress
              ((fun st => gameReducer st .updateMiningProgress now)^[k] s) 1
          = _
      rw [ihb]
      unfold calculateMiningProgress
      rw [ihp]
      push_cast
      ring
    · show ((fun st => gameReducer st .updateMiningProgress now)^[k] s).totalMined
          + calculateMiningProgress
              ((fun st => gameReducer st .updateMiningProgress now)^[k] s) 1
          = _
      rw [iht]
      unfold calculateMiningProgress
      rw [ihp]
      push_cast
      ring
    · show ((fun st => gameReducer st .updateMiningProgress now)^[k] s).parts = _
      rw [ihp]

/-- C7: with isMining true, one UPDATE_MINING_PROGRESS dispatch adds
exactly earningsPerSecond(parts) * 1 second to balance and totalMined
and changes no other field except lastUpdated; and 10 dispatches from
the initial state (balance 0, totalMined 0, all parts at level 1)
leave balance and totalMined both at 10 * earningsPerSecond(initial
parts). -/
theorem updateMiningProgress_spec (s : GameState) (now t0 : ℤ)
    (hmine : s.isMining = true) :
    gameReducer s .updateMiningProgress now
      = { s with balance := s.balance + calculateEarningsPerSecond s.parts * 1,
                 totalMined :=
                   s.totalMined + calculateEarningsPerSecond s.parts * 1,
                 lastUpdated := now }
    ∧ ((fun st => gameReducer st .updateMiningProgress now)^[10]
          { initialState t0 with isMining := true }).balance
        = 10 * calculateEarningsPerSecond (initialState t0).parts
    ∧ ((fun st => gameReducer st .updateMiningProgress now)^[10]
          { initialState t0 with isMining := true }).totalMined
        = 10 * calculateEarningsPerSecond (initialState t0).parts := by
  refine ⟨rfl, ?_, ?_⟩
  · rw [(miningTick_iterate now 10 _).1]
    show (initialState t0).balance + _ = _
    simp [initialState]
  · rw [(miningTick_iterate now 10 _).2.1]
    show (initialState t0).totalMined + _ = _
    simp [initialState]

/-- Witness for C7 at a concrete mining state. -/
theorem updateMiningProgress_spec_witness :
    ({ initialState 0 with isMining := true } : GameState).isMining = true
    ∧ gameReducer { initialState 0 with isMining := true }
        .updateMiningProgress 5
      = { ({ initialState 0 with isMining := true } : GameState) with
            balance := ({ initialState 0 with isMining := true } :
              GameState).balance
              + calculateEarningsPerSecond
                  ({ initialState 0 with isMining := true } :
                    GameState).parts * 1,
            totalMined := ({ initialState 0 with isMining := true } :
              GameState).totalMined
              + calculateEarningsPerSecond
                  ({ initialState 0 with isMining := true } :
                    GameState).parts * 1,
            lastUpdated := 5 } :=
  ⟨rfl, (updateMiningProgress_spec { initialState 0 with isMining := true }
    5 0 rfl).1⟩

/-- Stated preconditions of the Game State Store transitions: an
upgrade steps the part's level by one without passing its configured
maximum, and offline earnings are non-negative. -/
def transitionPre (s : GameState) : GameAction → Prop
  | .upgradePartA part level =>
      level = s.parts.level part + 1 ∧ level ≤ (partConfigs part).maxLevel
  | .updateOfflineProgress earnings _ => 0 ≤ earnings
  | _ => True

/-- Every part level is at most its configured maximum. -/
def levelInvariant (s : GameState) : Prop :=
  ∀ p : PartName, s.parts.level p ≤ (partConfigs p).maxLevel

/-- C9: every reducer transition other than SET_GAME_STATE, under its
stated precondition, never decreases a part level, keeps every part
level at most its configured maximum, and never decreases
totalMined. -/
theorem gameReducer_invariants (s : GameState) (a : GameAction) (now : ℤ)
    (hnr : a.isReplaceState = false) (hpre : transitionPre s a) :
    (∀ p, s.parts.level p ≤ (gameReducer s a now).parts.level p)
    ∧ (levelInvariant s → levelInvariant (gameReducer s a now))
    ∧ s.totalMined ≤ (gameReducer s a now).totalMined := by
  cases a with
  | updateBalanceA v => exact ⟨fun p => le_refl _, fun h => h, le_refl _⟩
  | upgradePartA part level =>
    obtain ⟨hstep, hmax⟩ := hpre
    refine ⟨?_, ?_, le_refl _⟩
    · intro p
      cases part <;> cases p <;>
        simp_all [gameReducer, Parts.upd, Parts.level]
    · intro hinv p
      have hp := hinv p
      cases part <;> cases p <;>
        simp_all [gameReducer, Parts.upd, Parts.level]
  | setGameState payload => simp [GameAction.isReplaceState] at hnr
  | startMining => exact ⟨fun p => le_refl _, fun h => h, le_refl _⟩
  | stopMining => exact ⟨fun p => le_refl _, fun h => h, le_refl _⟩
  | updateMiningProgress =>
    refine ⟨fun p => le_refl _, fun h => h, ?_⟩
    show s.totalMined ≤ s.totalMined + calculateMiningProgress s 1
    have h0 : 0 ≤ calculateMiningProgress s 1 := by
      show (0 : ℚ) ≤ calculateEarningsPerSecond s.parts * 1
      have := calculateEarningsPerSecond_nonneg s.parts
      linarith
    linarith
  | updateOfflineProgress earnings timeOffline =>
    refine ⟨fun p => le_refl _, fun h => h, ?_⟩
    show s.totalMined ≤ s.totalMined + earnings
    have h0 : (0 : ℚ) ≤ earnings := hpre
    linarith
  | showOfflineEarnings earnings timeOffline =>
    exact ⟨fun p => le_refl _, fun h => h, le_refl _⟩

/-- Witness for C9: an in-range cpu upgrade from the initial state. -/
theorem gameReducer_invariants_witness :
    (GameAction.upgradePartA .cpu 2).isReplaceState = false
    ∧ transitionPre (initialState 0) (.upgradePartA .cpu 2)
    ∧ ((∀ p, (initialState 0).parts.level p
          ≤ (gameReducer (initialState 0) (.upgradePartA .cpu 2) 7).parts.level p)
      ∧ (levelInvariant (initialState 0)
          → levelInvariant
              (gameReducer (initialState 0) (.upgradePartA .cpu 2) 7))
      ∧ (initialState 0).totalMined
          ≤ (gameReducer (initialState 0) (.upgradePartA .cpu 2) 7).totalMined) :=
  ⟨rfl, ⟨by simp [initialState, Parts.level], by norm_num [partConfigs]⟩,
    gameReducer_invariants (initialState 0) (.upgradePartA .cpu 2) 7 rfl
      ⟨by simp [initialState, Parts.level], by norm_num [partConfigs]⟩⟩

/-! ## Retry lemmas -/

lemma retryAux_ok {α : Type} (op : ℕ → NetOutcome α) (r c : ℕ) (v : α)
    (h : op c = .ok v) : retryAux op r c = ⟨.ok v, [], 1⟩ := by
  unfold retryAux
  rw [h]

lemma retryAux_http {α : Type} (op : ℕ → NetOutcome α) (r c s : ℕ)
    (h : op c = .httpError s) : retryAux op r c = ⟨.httpError s, [], 1⟩ := by
  unfold retryAux
  rw [h]

lemma retryAux_noResp_zero {α : Type} (op : ℕ → NetOutcome α) (c : ℕ)
    (h : op c = .noResponse) : retryAux op 0 c = ⟨.noResponse, [], 1⟩ := by
  unfold retryAux
  rw [h]

lemma retryAux_noResp_succ {α : Type} (op : ℕ → NetOutcome α) (r c : ℕ)
    (h : op c = .noResponse) :
    retryAux op (r + 1) c =
      ⟨(retryAux op r (c + 1)).result,
       min (1000 * (MAX_RETRY_ATTEMPTS - (r + 1) + 1)) 5000
         :: (retryAux op r (c + 1)).delays,
       (retryAux op r (c + 1)).calls + 1⟩ := by
  conv in retryAux op (r+1) c => unfold retryAux
  rw [h]

lemma retryAux_calls_le {α : Type} (op : ℕ → NetOutcome α) (r : ℕ) :
    ∀ c, (retryAux op r c).calls ≤ r + 1 := by
  induction r with
  | zero =>
    intro c
    cases h : op c with
    | ok v => rw [retryAux_ok op 0 c v h]
    | noResponse => rw [retryAux_noResp_zero op c h]
    | httpError s => rw [retryAux_http op 0 c s h]
  | succ k ih =>
    intro c
    cases h : op c with
    | ok v => rw [retryAux_ok op (k+1) c v h]; simp
    | httpError s => rw [retryAux_http op (k+1) c s h]; simp
    | noResponse =>
      rw [retryAux_noResp_succ op k c h]
      have := ih (c + 1)
      simp only
      omega

/-- C6: with the default budget, retryWithBackoff makes at most four
calls (one initial call plus up to three retries); when every call
fails without a response, the caller sees the connectivity failure
only after exactly four calls, with sleeps of min(1000 * k, 5000) ms,
k = 1, 2, 3, between the attempts; and a first call failing with a
server-returned error status propagates immediately: one call, no
sleeps, the same error status.  Moreover a connectivity failure
reaching the caller always means four calls were made. -/
theorem retryWithBackoff_spec {α : Type} (op : ℕ → NetOutcome α) :
    (retryWithBackoff op).calls ≤ 4
    ∧ ((∀ i, i < 4 → op i = .noResponse) →
        retryWithBackoff op
          = ⟨.noResponse,
             [min (1000 * 1) 5000, min (1000 * 2) 5000, min (1000 * 3) 5000],
             4⟩)
    ∧ (∀ s, op 0 = .httpError s →
        retryWithBackoff op = ⟨.httpError s, [], 1⟩)
    ∧ ((retryWithBackoff op).result = .noResponse →
        (retryWithBackoff op).calls = 4)
    ∧ (∀ i s, i ≤ 3 → (∀ j, j < i → op j = .noResponse) →
        op i = .httpError s →
        (retryWithBackoff op).result = .httpError s
        ∧ (retryWithBackoff op).calls = i + 1) := by
  refine ⟨retryAux_calls_le op 3 0, ?_, ?_, ?_, ?_⟩
  · intro hall
    have h0 := hall 0 (by norm_num)
    have h1 := hall 1 (by norm_num)
    have h2 := hall 2 (by norm_num)
    have h3 := hall 3 (by norm_num)
    unfold retryWithBackoff
    show retryAux op 3 0 = _
    rw [retryAux_noResp_succ op 2 0 h0, retryAux_noResp_succ op 1 1 h1,
      retryAux_noResp_succ op 0 2 h2, retryAux_noResp_zero op 3 h3]
    simp [MAX_RETRY_ATTEMPTS]
  · intro s h0
    unfold retryWithBackoff
    show retryAux op 3 0 = _
    rw [retryAux_http op 3 0 s h0]
  · intro hres
    have hM : retryWithBackoff op = retryAux op 3 0 := rfl
    rw [hM] at hres ⊢
    cases h0 : op 0 with
    | ok v => rw [retryAux_ok op 3 0 v h0] at hres; simp at hres
    | httpError s => rw [retryAux_http op 3 0 s h0] at hres; simp at hres
    | noResponse =>
      rw [retryAux_noResp_succ op 2 0 h0] at hres ⊢
      simp only at hres ⊢
      cases h1 : op 1 with
      | ok v => rw [retryAux_ok op 2 1 v h1] at hres; simp at hres
      | httpError s => rw [retryAux_http op 2 1 s h1] at hres; simp at hres
      | noResponse =>
        rw [retryAux_noResp_succ op 1 1 h1] at hres ⊢
        simp only at hres ⊢
        cases h2 : op 2 with
        | ok v => rw [retryAux_ok op 1 2 v h2] at hres; simp at hres
        | httpError s => rw [retryAux_http op 1 2 s h2] at hres; simp at hres
        | noResponse =>
          rw [retryAux_noResp_succ op 0 2 h2] at hres ⊢
          simp only at hres ⊢
          cases h3 : op 3 with
          | ok v => rw [retryAux_ok op 0 3 v h3] at hres; simp at hres
          | httpError s => rw [retryAux_http op 0 3 s h3] at hres; simp at hres
          | noResponse => rw [retryAux_noResp_zero op 3 h3]
  · intro i s hi hprev hstop
    have hM : retryWithBackoff op = retryAux op 3 0 := rfl
    rw [hM]
    interval_cases i
    · rw [retryAux_http op 3 0 s hstop]
      exact ⟨rfl, rfl⟩
    · rw [retryAux_noResp_succ op 2 0 (hprev 0 (by norm_num)),
        retryAux_http op 2 1 s hstop]
      exact ⟨rfl, rfl⟩
    · rw [retryAux_noResp_succ op 2 0 (hprev 0 (by norm_num)),
        retryAux_noResp_succ op 1 1 (hprev 1 (by norm_num)),
        retryAux_http op 1 2 s hstop]
      exact ⟨rfl, rfl⟩
    · rw [retryAux_noResp_succ op 2 0 (hprev 0 (by norm_num)),
        retryAux_noResp_succ op 1 1 (hprev 1 (by norm_num)),
        retryAux_noResp_succ op 0 2 (hprev 2 (by norm_num)),
        retryAux_http op 0 3 s hstop]
      exact ⟨rfl, rfl⟩

/-- Witness for C6: an operation that never gets a response. -/
theorem retryWithBackoff_spec_witness :
    retryWithBackoff (fun _ => (NetOutcome.noResponse : NetOutcome ℕ))
      = ⟨.noResponse,
         [min (1000 * 1) 5000, min (1000 * 2) 5000, min (1000 * 3) 5000], 4⟩
    ∧ (retryWithBackoff
        (fun _ => (NetOutcome.noResponse : NetOutcome ℕ))).calls ≤ 4 :=
  ⟨((retryWithBackoff_spec fun _ => .noResponse).2.1 fun _ _ => rfl),
   (retryWithBackoff_spec fun _ => .noResponse).1⟩

/-! ## Queue replay lemmas -/

lemma queueLe_trans (a b c : QueuedOperation)
    (hab : queueLe a b = true) (hbc : queueLe b c = true) :
    queueLe a c = true := by
  simp only [queueLe, decide_eq_true_eq] at hab hbc ⊢
  omega

lemma queueLe_total (a b : QueuedOperation) :
    (queueLe a b || queueLe b a) = true := by
  simp only [queueLe, Bool.or_eq_true, decide_eq_true_eq]
  omega

lemma processQueueLoop_eq (replay : QueuedOperation → Bool)
    (pre : List QueuedOperation) (b : QueuedOperation)
    (post : List QueuedOperation)
    (hpre : ∀ op ∈ pre, replay op = true) (hb : replay b = false) :
    ∀ queue, processQueueLoop replay (pre ++ b :: post) queue
      = (pre ++ [b], queue.filter fun x => decide (x ∉ pre)) := by
  induction pre with
  | nil =>
    intro queue
    simp [processQueueLoop, hb]
  | cons a pre' ih =>
    intro queue
    have ha : replay a = true := hpre a (by simp)
    have hpre' : ∀ op ∈ pre', replay op = true := fun op hop =>
      hpre op (by simp [hop])
    show (if replay a then _ else _) = _
    rw [ha, if_pos rfl]
    simp only [List.append_eq]
    rw [ih hpre' (queue.filter fun x => decide (x ≠ a))]
    dsimp only
    refine Prod.ext rfl ?_
    show (queue.filter fun x => decide (x ≠ a)).filter
        (fun x => decide (x ∉ pre'))
      = queue.filter fun x => decide (x ∉ a :: pre')
    rw [List.filter_filter]
    apply List.filter_congr
    intro x _
    by_cases hxa : x = a <;> by_cases hxp : x ∈ pre' <;>
      simp [hxa, hxp]

/-- C2: processQueue replays the queued operations in FIFO order of
their enqueue timestamps (the attempted operations are the prefix of
the timestamp-sorted queue up to and including the first failure, and
are pairwise ordered by timestamp); operations are removed from the
queue exactly when their replay succeeded, the remaining queue keeping
its original order (it is the original queue filtered to the
operations not yet successfully replayed); processing stops at the
first failing replay, leaving it and every later operation queued. -/
theorem processQueue_spec (replay : QueuedOperation → Bool)
    (queue pre post : List QueuedOperation) (b : QueuedOperation)
    (hnd : queue.Nodup) (hne : queue ≠ [])
    (hsort : queue.mergeSort queueLe = pre ++ b :: post)
    (hpre : ∀ op ∈ pre, replay op = true) (hb : replay b = false) :
    processQueue replay true queue
      = (pre ++ [b], queue.filter fun x => decide (x ∉ pre))
    ∧ List.Pairwise (fun x y => queueLe x y = true) (pre ++ [b]) := by
  constructor
  · unfold processQueue
    rw [if_neg (by simp [List.isEmpty_iff, hne]), hsort,
      processQueueLoop_eq replay pre b post hpre hb queue]
  · have hs := List.sorted_mergeSort queueLe_trans queueLe_total queue
    rw [hsort] at hs
    exact hs.sublist
      (List.Sublist.append_left (List.Sublist.cons₂ b (List.nil_sublist post)) pre)

/-- Witness for C2: three operations enqueued at timestamps 10, 20,
30; the replay of the second throws; the first is removed, the second
and third remain queued in order. -/
theorem processQueue_spec_witness :
    processQueue (fun op => decide (op.timestamp ≠ 20)) true
        [⟨.upgrade .cpu 2, 10⟩, ⟨.upgrade .gpu 3, 20⟩, ⟨.upgrade .ram 4, 30⟩]
      = ([⟨.upgrade .cpu 2, 10⟩, ⟨.upgrade .gpu 3, 20⟩],
         [⟨.upgrade .gpu 3, 20⟩, ⟨.upgrade .ram 4, 30⟩]) := by
  have h := processQueue_spec (fun op => decide (op.timestamp ≠ 20))
    [⟨.upgrade .cpu 2, 10⟩, ⟨.upgrade .gpu 3, 20⟩, ⟨.upgrade .ram 4, 30⟩]
    [⟨.upgrade .cpu 2, 10⟩] [⟨.upgrade .ram 4, 30⟩] ⟨.upgrade .gpu 3, 20⟩
    (by simp) (by simp)
    (by simp [List.mergeSort, queueLe])
    (by intro op hop; simp at hop; simp [hop]) (by simp)
  rw [h.1]
  simp

/-! ## Sync-layer lemmas -/

lemma savePosts_append (es1 es2 : List SyncEvent) :
    savePosts (es1 ++ es2) = savePosts es1 ++ savePosts es2 := by
  unfold savePosts
  exact List.filterMap_append es1 es2 _

lemma fetchGameState_frame (w : World) :
    (fetchGameState w).1.token = w.token
    ∧ savePosts (fetchGameState w).1.events = savePosts w.events
    ∧ (fetchGameState w).1.online = w.online
    ∧ (fetchGameState w).1.now = w.now
    ∧ (fetchGameState w).1.queue = w.queue
    ∧ (fetchGameState w).1.saveResults = w.saveResults := by
  unfold fetchGameState World.popLoad
  cases htok : w.token with
  | none => simp [htok]
  | some t =>
    cases hl : w.loadResults with
    | nil =>
      cases hc : w.cache with
      | none => simp [htok, hl, hc]
      | some c =>
        cases hp : parseGameState c <;> simp [htok, hl, hc, hp]
    | cons r rest =>
      cases r with
      | ok raw =>
        cases hp : parseGameState raw <;>
          simp [htok, hl, hp, savePosts, List.filterMap_append]
      | noResponse =>
        cases hc : w.cache with
        | none => simp [htok, hl, hc]
        | some c =>
          cases hp : parseGameState c <;> simp [htok, hl, hc, hp]
      | httpError s => by_cases h401 : s = 401 <;> simp [htok, hl, h401]

lemma debouncedSave_savePosts (st : GameStateWV) (w : World) (tok : ℕ)
    (htok : w.token = some tok) :
    savePosts (debouncedSave st w).1.events
      = savePosts w.events ++ [⟨st, st.version⟩] := by
  unfold debouncedSave World.popSave
  rw [htok]
  cases hs : w.saveResults with
  | nil =>
    cases hon : w.online <;>
      simp [hs, hon, savePosts, List.filterMap_append]
  | cons r rest =>
    cases r with
    | ok u => simp [hs, savePosts, List.filterMap_append]
    | noResponse =>
      cases hon : w.online <;>
        simp [hs, hon, savePosts, List.filterMap_append]
    | httpError s =>
      cases hon : w.online <;>
        simp [hs, hon, savePosts, List.filterMap_append]

/-! ## Claim theorems: sync layer -/

/-- C5: fetchGameState on a successful response caches the validated
remote state and returns it; on a connectivity failure with no
response it returns the cached copy when that copy validates against
the schema, the distinct failure "Invalid stored game state" when the
cached copy fails validation, and a failure when no cache exists; on a
401 response it returns the distinct failure "Authentication required"
whatever the cache holds. -/
theorem fetchGameState_spec (w : World) (tok : ℕ)
    (htok : w.token = some tok) :
    (∀ raw st rest, w.loadResults = .ok raw :: rest →
        parseGameState raw = some st →
        fetchGameState w
          = ({ w with loadResults := rest,
                      cache := some (.valid st),
                      events := w.events ++ [.cacheWrite (.valid st)] },
             { success := true, data := some st }))
    ∧ (∀ rest c st, w.loadResults = .noResponse :: rest → w.cache = some c →
        parseGameState c = some st →
        (fetchGameState w).2 = { success := true, data := some st })
    ∧ (∀ rest c, w.loadResults = .noResponse :: rest → w.cache = some c →
        parseGameState c = none →
        (fetchGameState w).2
          = { success := false, error := some "Invalid stored game state" })
    ∧ (∀ rest, w.loadResults = .noResponse :: rest → w.cache = none →
        (fetchGameState w).2
          = { success := false, error := some "Failed to load game state" })
    ∧ (∀ rest, w.loadResults = .httpError 401 :: rest →
        (fetchGameState w).2
          = { success := false, error := some "Authentication required" }) := by
  refine ⟨?_, ?_, ?_, ?_, ?_⟩
  · intro raw st rest hload hparse
    unfold fetchGameState World.popLoad
    rw [htok, hload]
    simp [hparse]
  · intro rest c st hload hc hparse
    unfold fetchGameState World.popLoad
    rw [htok, hload]
    simp [hc, hparse]
  · intro rest c hload hc hparse
    unfold fetchGameState World.popLoad
    rw [htok, hload]
    simp [hc, hparse]
  · intro rest hload hc
    unfold fetchGameState World.popLoad
    rw [htok, hload]
    simp [hc]
  · intro rest hload
    unfold fetchGameState World.popLoad
    rw [htok, hload]
    simp

/-- Witness for C5: a world with a token, a valid cached copy, and a
401 response; the authentication failure is returned, not the cache. -/
theorem fetchGameState_spec_witness :
    (fetchGameState
        ⟨some 1, some (.valid ⟨initialState 0, 3⟩), [], true, 0,
         [.httpError 401], [], []⟩).2
      = { success := false, error := some "Authentication required" } :=
  (fetchGameState_spec
    ⟨some 1, some (.valid ⟨initialState 0, 3⟩), [], true, 0,
     [.httpError 401], [], []⟩ 1 rfl).2.2.2.2 [] rfl

/-- C3: when the (debounced) save's network write fails while the
client is offline, the state is appended to the operation queue and
the caller gets a successful queued-warning result; when the write
fails while online, the caller gets an error result and the queue is
unchanged. -/
theorem debouncedSave_offline_queue_spec (w : World) (st : GameStateWV)
    (tok : ℕ) (res : NetOutcome Unit) (rest : List (NetOutcome Unit))
    (htok : w.token = some tok) (hres : w.saveResults = res :: rest)
    (hfail : res.isOk = false) :
    (w.online = false →
        (debouncedSave st w).2
          = { success := true, warning := some "Changes queued for sync" }
        ∧ (debouncedSave st w).1.queue
            = w.queue ++ [⟨.save st, w.now⟩])
    ∧ (w.online = true →
        (debouncedSave st w).2
          = { success := false, error := some "Failed to save game state" }
        ∧ (debouncedSave st w).1.queue = w.queue) := by
  constructor
  · intro hon
    unfold debouncedSave World.popSave
    rw [htok, hres]
    cases res with
    | ok u => simp [NetOutcome.isOk] at hfail
    | noResponse => simp [hon]
    | httpError s => simp [hon]
  · intro hon
    unfold debouncedSave World.popSave
    rw [htok, hres]
    cases res with
    | ok u => simp [NetOutcome.isOk] at hfail
    | noResponse => simp [hon]
    | httpError s => simp [hon]

/-- Witness for C3: an offline world whose save gets no response; the
operation is queued and the result is a queued success. -/
theorem debouncedSave_offline_queue_spec_witness :
    (debouncedSave ⟨initialState 0, 3⟩
        ⟨some 1, none, [], false, 50, [], [.noResponse], []⟩).2
      = { success := true, warning := some "Changes queued for sync" }
    ∧ (debouncedSave ⟨initialState 0, 3⟩
        ⟨some 1, none, [], false, 50, [], [.noResponse], []⟩).1.queue
      = [] ++ [⟨.save ⟨initialState 0, 3⟩, 50⟩] :=
  (debouncedSave_offline_queue_spec
    ⟨some 1, none, [], false, 50, [], [.noResponse], []⟩
    ⟨initialState 0, 3⟩ 1 .noResponse [] rfl rfl rfl).1 rfl

/-- C4: every save submitted by saveProgress carries version equal to
the version freshly loaded immediately before the save plus one, and
its If-Match header carries that attached version; when the fresh load
fails, saveProgress returns the fetch failure and submits no save
request. -/
theorem saveProgress_spec (w : World) (s : GameStateWV) (tok : ℕ)
    (htok : w.token = some tok) :
    (∀ d : GameStateWV, (fetchGameState w).2.success = true →
        (fetchGameState w).2.data = some d →
        savePosts (saveProgress s w).1.events
          = savePosts w.events
            ++ [⟨{ s with version := d.version + 1 }, d.version + 1⟩])
    ∧ ((fetchGameState w).2.success = false →
        (saveProgress s w).2
          = { success := false, error := some "Failed to fetch current state" }
        ∧ savePosts (saveProgress s w).1.events = savePosts w.events) := by
  have hframe := fetchGameState_frame w
  constructor
  · intro d hsucc hdata
    unfold saveProgress
    dsimp only
    rw [hsucc, hdata]
    simp only
    rw [debouncedSave_savePosts _ _ tok (by rw [hframe.1, htok])]
    rw [hframe.2.1]
  · intro hfail
    unfold saveProgress
    dsimp only
    rw [hfail]
    cases hdata : (fetchGameState w).2.data with
    | none => exact ⟨rfl, hframe.2.1⟩
    | some d => exact ⟨rfl, hframe.2.1⟩

/-- Witness for C4: a fresh load returning version 7 makes
saveProgress submit exactly one request with body version 8 and
If-Match 8. -/
theorem saveProgress_spec_witness :
    savePosts
        (saveProgress ⟨initialState 5, 0⟩
          ⟨some 1, none, [], true, 0,
           [.ok (.valid ⟨initialState 0, 7⟩)], [.ok ()], []⟩).1.events
      = savePosts
          (⟨some 1, none, [], true, 0,
            [.ok (.valid ⟨initialState 0, 7⟩)], [.ok ()],
            []⟩ : World).events
        ++ [⟨⟨initialState 5, 8⟩, 8⟩] := by
  have h := (saveProgress_spec
    ⟨some 1, none, [], true, 0,
     [.ok (.valid ⟨initialState 0, 7⟩)], [.ok ()], []⟩
    ⟨initialState 5, 0⟩ 1 rfl).1 ⟨initialState 0, 7⟩
    (by simp [fetchGameState, World.popLoad, parseGameState])
    (by simp [fetchGameState, World.popLoad, parseGameState])
  simpa using h

/-- C10 (counterexample): the claim asserts that after an online save
failure the cache retains the optimistic value; but saveProgress
re-fetches before saving, and that fetch overwrites the cache with the
server copy, so after upgradePart's save fails online (here with a 409
response) the cache holds the re-fetched server state, not the
optimistic one. -/
theorem optimistic_cache_counterexample :
    (upgradePart .cpu 2
        ⟨some 1, some (.valid ⟨initialState 0, 7⟩), [], true, 1000,
         [.ok (.valid ⟨initialState 0, 7⟩), .ok (.valid ⟨initialState 0, 7⟩)],
         [.httpError 409], []⟩).2.success = false
    ∧ (upgradePart .cpu 2
        ⟨some 1, some (.valid ⟨initialState 0, 7⟩), [], true, 1000,
         [.ok (.valid ⟨initialState 0, 7⟩), .ok (.valid ⟨initialState 0, 7⟩)],
         [.httpError 409], []⟩).1.cache
      ≠ some (.valid ⟨{ initialState 0 with
            parts := (initialState 0).parts.upd .cpu 2 }, 7⟩) := by
  constructor
  · simp [upgradePart, saveProgress, debouncedSave, fetchGameState,
      World.popLoad, World.popSave, parseGameState]
  · simp [upgradePart, saveProgress, debouncedSave, fetchGameState,
      World.popLoad, World.popSave, parseGameState, initialState, Parts.upd]

/-- C10 (amended): whenever the initial fetch succeeds, upgradePart
and updateBalance write the optimistically updated state to the
durable cache before any save request is submitted, and no
error-handling path restores the pre-operation cache value; however,
the fresh load performed inside saveProgress overwrites the cache with
the server state it fetches, so after a save that fails while online
the cache holds that re-fetched server copy rather than the optimistic
value, and the caller receives an error result. -/
theorem optimistic_cache_spec (w : World) (tok : ℕ) (S S2 : GameStateWV)
    (res : NetOutcome Unit) (part : PartName) (lvl : ℕ) (v : ℚ)
    (htok : w.token = some tok) (hon : w.online = true)
    (hload : w.loadResults = [.ok (.valid S), .ok (.valid S2)])
    (hsave : w.saveResults = [res]) (hfail : res.isOk = false) :
    ((upgradePart part lvl w).1.events
        = w.events
          ++ [.cacheWrite (.valid S),
              .cacheWrite (.valid
                { S with state :=
                    { S.state with parts := S.state.parts.upd part lvl } }),
              .cacheWrite (.valid S2),
              .savePost
                ⟨{ S with
                     state :=
                       { S.state with parts := S.state.parts.upd part lvl },
                     version := S2.version + 1 },
                  S2.version + 1⟩]
      ∧ (upgradePart part lvl w).1.cache = some (.valid S2)
      ∧ (upgradePart part lvl w).2.success = false)
    ∧ ((updateBalance v w).1.events
        = w.events
          ++ [.cacheWrite (.valid S),
              .cacheWrite (.valid
                { S with state := { S.state with balance := v } }),
              .cacheWrite (.valid S2),
              .savePost
                ⟨{ S with
                     state := { S.state with balance := v },
                     version := S2.version + 1 },
                  S2.version + 1⟩]
      ∧ (updateBalance v w).1.cache = some (.valid S2)
      ∧ (updateBalance v w).2.success = false) := by
  rcases res with u | _ | st
  · simp [NetOutcome.isOk] at hfail
  all_goals
    refine ⟨⟨?_, ?_, ?_⟩, ⟨?_, ?_, ?_⟩⟩ <;>
      simp [upgradePart, updateBalance, saveProgress, debouncedSave,
        fetchGameState, World.popLoad, World.popSave, parseGameState,
        htok, hon, hload, hsave]

/-- Witness for C10 (amended): concrete run in which the save gets no
response while online; the cache ends at the re-fetched server state
with version 9. -/
theorem optimistic_cache_spec_witness :
    (upgradePart .cpu 2
        ⟨some 1, none, [], true, 1000,
         [.ok (.valid ⟨initialState 0, 7⟩), .ok (.valid ⟨initialState 0, 9⟩)],
         [.noResponse], []⟩).1.cache
      = some (.valid ⟨initialState 0, 9⟩) :=
  (optimistic_cache_spec
    ⟨some 1, none, [], true, 1000,
     [.ok (.valid ⟨initialState 0, 7⟩), .ok (.valid ⟨initialState 0, 9⟩)],
     [.noResponse], []⟩
    1 ⟨initialState 0, 7⟩ ⟨initialState 0, 9⟩ .noResponse .cpu 2 5
    rfl rfl rfl rfl rfl).1.2.1

end CryptoMiner
